import Mathlib

/-!
# Verification of the spamassassin-mcp server core logic

A shallow embedding in Lean 4 of the Go code in `internal/spamassassin/client.go`
and `internal/handlers/handlers.go` of the spamassassin-mcp repository, together
with theorems settling the specification claims about it.

Embedding conventions:
* Go strings are byte strings; they are modelled as Lean `String` values in which
  every `Char` stands for one byte (the contents relevant to the claims are
  ASCII, where Go's byte length coincides with the character count).
* Go `float64` values (spam scores and thresholds) are modelled as rationals
  (`ℚ`): every decimal literal the program parses or compares is represented
  exactly, and the comparisons the claims are about (`>=`, equality) are the
  same on both carriers.
* Stateful pieces (the token-bucket rate limiter, the TCP connection to spamd)
  are modelled by explicit parameters: the limiter's verdict for the current
  call is a `Bool` (`rate.Limiter.Allow()`'s return value), and the daemon is an
  oracle function from request content and options to a result or an error.
* Fallible Go code returning `error` is modelled with `Except SAError`.
-/

/-- Error taxonomy of the server (the Go code uses `fmt.Errorf` strings; the
specification groups them into these kinds, which is what the claims refer to).
`malformedResponse` carries the formatted message text of the Go error. -/
inductive SAError where
  | emptyContent
  | contentTooLarge
  | invalidFormat
  | emptyRules
  | rateLimitExceeded
  | connectionFailed
  | malformedResponse (msg : String)
  | invalidAddressFormat
deriving DecidableEq, Repr

/-! ## Character classes and low-level string helpers (Go regexp / strings) -/

/-- `\d` of Go's regexp package. -/
def isDigitChar (c : Char) : Bool := '0' ≤ c && c ≤ '9'

/-- `\s` of Go's regexp package: `[\t\n\v\f\r ]`. -/
def isSpaceChar (c : Char) : Bool :=
  c = ' ' || c = '\t' || c = '\n' || c = '\r' || c = Char.ofNat 11 || c = Char.ofNat 12

/-- `\w` of Go's regexp package: `[0-9A-Za-z_]`. -/
def isWordChar (c : Char) : Bool :=
  ('a' ≤ c && c ≤ 'z') || ('A' ≤ c && c ≤ 'Z') || isDigitChar c || c = '_'

/-- `listPrefixOf needle hay` : the first list is a prefix of the second. -/
def listPrefixOf : List Char → List Char → Bool
  | [], _ => true
  | _ :: _, [] => false
  | a :: as, b :: bs => a = b && listPrefixOf as bs

/-- `listInfixOf needle hay` : the first list occurs contiguously in the second
(`strings.Contains hay needle` on the underlying byte lists). -/
def listInfixOf : List Char → List Char → Bool
  | n, [] => n.isEmpty
  | n, b :: bs => listPrefixOf n (b :: bs) || listInfixOf n bs

/-- `strings.Contains s sub`. -/
def strContains (s sub : String) : Bool := listInfixOf sub.toList s.toList

/-- `strings.HasPrefix s p` (`p` is a prefix of `s`). -/
def startsWithStr (s p : String) : Bool := listPrefixOf p.toList s.toList

/-- Split a character list at every occurrence of the separator
(`strings.Split` with a one-character separator; splitting the empty list
yields one empty part, like Go). -/
def splitChar (sep : Char) : List Char → List (List Char)
  | [] => [[]]
  | c :: rest =>
    match splitChar sep rest with
    | [] => [[c]]
    | h :: t => if c = sep then [] :: h :: t else (c :: h) :: t

/-- `strings.Split s (String.mk [sep])`. -/
def strSplitChar (sep : Char) (s : String) : List String :=
  (splitChar sep s.toList).map String.mk

/-- `strings.Join` of character lists with a one-character separator. -/
def intercalateChar (sep : Char) : List (List Char) → List Char
  | [] => []
  | [l] => l
  | l :: l2 :: ls => l ++ sep :: intercalateChar sep (l2 :: ls)

/-- `strings.Join parts (String.mk [sep])`. -/
def strJoinChar (sep : Char) (parts : List String) : String :=
  String.mk (intercalateChar sep (parts.map String.toList))

/-- The last character of a string, when there is one. -/
def lastCharIs (s : String) (c : Char) : Bool :=
  match s.toList.getLast? with
  | some c2 => c2 = c
  | none => false

/-- Drop the last character. -/
def dropLastChar (s : String) : String := String.mk s.toList.dropLast

/-- The first `n` characters (bytes, under the embedding convention):
Go's `s[:n]` for `n ≤ len s`. -/
def takeChars (s : String) (n : Nat) : String := String.mk (s.toList.take n)

/-- ASCII lower-casing of one character (`strings.ToLower` acts exactly so on
the ASCII contents the handlers compare). -/
def lowerChar (c : Char) : Char :=
  if 'A' ≤ c && c ≤ 'Z' then Char.ofNat (c.toNat + 32) else c

/-- `strings.ToLower`. -/
def toLowerStr (s : String) : String := String.mk (s.toList.map lowerChar)

/-- `strings.TrimSpace`: drop leading and trailing whitespace. -/
def trimBoth (s : String) : String :=
  String.mk (((s.toList.dropWhile isSpaceChar).reverse.dropWhile isSpaceChar).reverse)

/-- Drop leading whitespace (textproto's continuation-line trimming). -/
def trimLeftStr (s : String) : String := String.mk (s.toList.dropWhile isSpaceChar)

/-- list membership of a string in a slice: the helper `contains` of
`handlers.go` (exact element match). -/
def containsStr (slice : List String) (item : String) : Bool :=
  slice.any (fun s => s = item)

/-! ## The two regexes of `client.go`

`scoreRegex  = (-?\d+\.?\d*)/(-?\d+\.?\d*)`
`ruleRegex   = \s*(-?\d+\.?\d*)\s+(\w+)\s+(.*)`

`FindStringSubmatch` scans start positions left to right and, at a given start,
prefers greedy alternatives (Go regexp's leftmost-first semantics).  The
matcher below enumerates the alternatives of the number pattern
`-?\d+\.?\d*` in that preference order; the surrounding pieces of both regexes
(`/`, `\s+`, `\w+`, trailing `.*`) admit no backtracking against their
neighbours because their character classes are disjoint, so they are matched
greedily in one way. -/

/-- All splits `(l.take k, l.drop k ++ rest)` of `l`, longest prefix first. -/
def splitsDesc (l rest : List Char) : List (List Char × List Char) :=
  ((List.range (l.length + 1)).reverse).map (fun k => (l.take k, l.drop k ++ rest))

/-- All ways to match `\d+\.?\d*` at the head of the input, greedy first:
pairs of (matched characters, remainder). -/
def matchNumBody (cs : List Char) : List (List Char × List Char) :=
  let p := cs.span isDigitChar
  ((splitsDesc p.1 p.2).filter (fun q => !q.1.isEmpty)).flatMap (fun q =>
    let withDot : List (List Char × List Char) :=
      match q.2 with
      | '.' :: r2 => [(q.1 ++ ['.'], r2), (q.1, q.2)]
      | _ => [(q.1, q.2)]
    withDot.flatMap (fun w =>
      let e := w.2.span isDigitChar
      (splitsDesc e.1 e.2).map (fun v => (w.1 ++ v.1, v.2))))

/-- All ways to match `-?\d+\.?\d*` at the head of the input, in Go's
leftmost-first preference order. -/
def matchNumFrom (cs : List Char) : List (List Char × List Char) :=
  match cs with
  | '-' :: rest => (matchNumBody rest).map (fun p => ('-' :: p.1, p.2)) ++ matchNumBody cs
  | _ => matchNumBody cs

/-- Match `(-?\d+\.?\d*)/(-?\d+\.?\d*)` anchored at the head of the input,
returning the two captured groups of the preferred match. -/
def matchScorePairAt (cs : List Char) : Option (String × String) :=
  ((matchNumFrom cs).flatMap (fun p =>
    match p.2 with
    | '/' :: r2 => (matchNumFrom r2).map (fun q => (String.mk p.1, String.mk q.1))
    | _ => [])).head?

/-- Scan for the leftmost match of `scoreRegex`. -/
def scoreRegexFindAux : List Char → Option (String × String)
  | [] => none
  | c :: cs =>
    match matchScorePairAt (c :: cs) with
    | some g => some g
    | none => scoreRegexFindAux cs

/-- `scoreRegex.FindStringSubmatch`: the two captured groups of the leftmost
match of `(-?\d+\.?\d*)/(-?\d+\.?\d*)`, or `none` when the line has no match. -/
def scoreRegexFind (s : String) : Option (String × String) :=
  scoreRegexFindAux s.toList

/-- Match `\s*(-?\d+\.?\d*)\s+(\w+)\s+(.*)` anchored at the head of the input,
returning the three captured groups.  The runs after the number (`\s+`, `\w+`,
`\s+`) are forced to be maximal: taking fewer characters always leaves a
character of the same class next, which the following sub-pattern rejects. -/
def matchRuleAt (cs : List Char) : Option (String × String × String) :=
  let r0 := (cs.span isSpaceChar).2
  ((matchNumFrom r0).flatMap (fun p =>
    let s1 := p.2.span isSpaceChar
    if s1.1.isEmpty then [] else
    let w := s1.2.span isWordChar
    if w.1.isEmpty then [] else
    let s2 := w.2.span isSpaceChar
    if s2.1.isEmpty then [] else
    [(String.mk p.1, String.mk w.1, String.mk s2.2)])).head?

/-- Scan for the leftmost match of `ruleRegex`. -/
def ruleRegexFindAux : List Char → Option (String × String × String)
  | [] => none
  | c :: cs =>
    match matchRuleAt (c :: cs) with
    | some g => some g
    | none => ruleRegexFindAux cs

/-- `ruleRegex.FindStringSubmatch`: the three captured groups of the leftmost
match of `\s*(-?\d+\.?\d*)\s+(\w+)\s+(.*)`, or `none` when there is none. -/
def ruleRegexFind (s : String) : Option (String × String × String) :=
  ruleRegexFindAux s.toList

/-! ## Decimal parsing (`strconv.ParseFloat` on the captured groups)

Every string handed to `ParseFloat` by `client.go` is a capture of the number
pattern `-?\d+\.?\d*`, i.e. an optional sign, a nonempty integer part, an
optional dot and an optional fraction part.  `parseDecimal` models
`ParseFloat` on exactly these decimal forms (exponents, hex floats and
inf/NaN spellings never occur in a capture), returning the exact rational. -/

/-- Value of a digit run. -/
def digitsVal (cs : List Char) : Nat :=
  cs.foldl (fun acc c => 10 * acc + (c.toNat - '0'.toNat)) 0

/-- Parse `\d+\.?\d*` as an exact rational. -/
def parseUnsignedDecimal (cs : List Char) : Option ℚ :=
  let p := cs.span isDigitChar
  if p.1.isEmpty then none else
  match p.2 with
  | [] => some (digitsVal p.1)
  | '.' :: frac =>
    let f := frac.span isDigitChar
    if f.2.isEmpty then
      some ((digitsVal p.1 : ℚ) + (digitsVal f.1 : ℚ) / (10 ^ f.1.length : ℚ))
    else none
  | _ => none

/-- Parse `-?\d+\.?\d*` as an exact rational (`strconv.ParseFloat` on the
decimal forms produced by the regex captures). -/
def parseDecimal (s : String) : Option ℚ :=
  match s.toList with
  | '-' :: rest => (parseUnsignedDecimal rest).map Neg.neg
  | cs => parseUnsignedDecimal cs

/-! ## `internal/spamassassin/client.go` -/

/-- `ScanOptions` of `client.go`. -/
structure ScanOptions where
  checkBayes : Bool
  verbose : Bool
deriving DecidableEq, Repr

/-- `RuleMatch` of `client.go`. -/
structure RuleMatch where
  name : String
  score : ℚ
  description : String
deriving DecidableEq, Repr

/-- `ScanResult` of `client.go`.  The Go `Headers` map is modelled as an
association list with map-update semantics (`updateHeaders`). -/
structure ScanResult where
  score : ℚ
  threshold : ℚ
  isSpam : Bool
  rulesHit : List RuleMatch
  summary : String
  headers : List (String × String)
deriving DecidableEq, Repr

/-- `ConfigInfo` of `client.go` (the `Settings  map[string]any` entries are the
three strings the code puts there). -/
structure ConfigInfo where
  version : String
  threshold : ℚ
  bayesEnabled : Bool
  ruleCount : Nat
  settings : List (String × String)
deriving DecidableEq, Repr

/-- The connection parameters of `Client` (`host`, `port`, `timeout`,
`threshold`); the timeout is kept as its rendered string, which is all
`GetConfig` uses it for. -/
structure ClientConfig where
  host : String
  port : Nat
  timeout : String
  threshold : ℚ
deriving DecidableEq, Repr

/-- The command word chosen by `ScanEmail`: `REPORT` when verbose, else
`CHECK`. -/
def scanCommand (options : ScanOptions) : String :=
  if options.verbose then "REPORT" else "CHECK"

/-- The exact byte string `ScanEmail` writes to the daemon connection
(`client.go` lines 101–115): the command line and `Content-length` header,
then — only when Bayes analysis was requested — the `User: bayes` header,
then the blank line and the raw content. -/
def scanRequestFrame (content : String) (options : ScanOptions) : String :=
  let headers :=
    scanCommand options ++ " SPAMC/1.2\r\nContent-length: " ++
      toString content.length ++ "\r\n"
  let headers := if options.checkBayes then headers ++ "User: bayes\r\n" else headers
  headers ++ "\r\n" ++ content

/-- `parseSpamLine` of `client.go`: run `scoreRegex` over the line and parse
the two captures; any failure is a malformed-response error carrying the Go
error message. -/
def parseSpamLine (line : String) : Except SAError (ℚ × ℚ) :=
  match scoreRegexFind line with
  | none => .error (.malformedResponse ("invalid spam line format: " ++ line))
  | some g =>
    match parseDecimal g.1 with
    | none => .error (.malformedResponse ("invalid score: " ++ g.1))
    | some score =>
      match parseDecimal g.2 with
      | none => .error (.malformedResponse ("invalid threshold: " ++ g.2))
      | some threshold => .ok (score, threshold)

/-- `strings.SplitN line ":" 2`: `none` when the line has no colon, otherwise
the text before the first colon and everything after it. -/
def splitN2 (line : String) : Option (String × String) :=
  match strSplitChar ':' line with
  | [] => none
  | [_] => none
  | p :: rest => some (p, strJoinChar ':' rest)

/-- Go map assignment `m[k] = v` on the association-list model: overwrite an
existing binding, otherwise append. -/
def updateHeaders (hs : List (String × String)) (k v : String) : List (String × String) :=
  if hs.any (fun p => p.1 = k) then
    hs.map (fun p => if p.1 = k then (k, v) else p)
  else hs ++ [(k, v)]

/-- The header loop of `parseResponse` (`client.go` lines 133–151): consume
lines until a blank line (or end of stream), dispatching `Spam:`-prefixed
lines to `parseSpamLine` and storing every other line that splits on a colon
as a trimmed header.  Returns the accumulated result and the remaining lines
after the blank-line boundary. -/
def parseHeaders (r : ScanResult) : List String → Except SAError (ScanResult × List String)
  | [] => .ok (r, [])
  | line :: rest =>
    if line = "" then .ok (r, rest)
    else if startsWithStr line "Spam:" then
      match parseSpamLine line with
      | .error e => .error e
      | .ok st => parseHeaders { r with score := st.1, threshold := st.2 } rest
    else
      match splitN2 line with
      | some kv => parseHeaders { r with headers := updateHeaders r.headers (trimBoth kv.1) (trimBoth kv.2) } rest
      | none => parseHeaders r rest

/-- The loop of `parseRules` (`client.go` lines 191–220): trim each line, flip
into the rules section at a line containing `pts rule name`, and in the
section parse each nonempty line with `ruleRegex`, appending a `RuleMatch` per
successful match whose score parses. -/
def parseRulesLines (inSection : Bool) (acc : List RuleMatch) : List String → List RuleMatch
  | [] => acc
  | line :: rest =>
    let line := trimBoth line
    if strContains line "pts rule name" then parseRulesLines true acc rest
    else if inSection && line ≠ "" then
      match ruleRegexFind line with
      | some g =>
        match parseDecimal g.1 with
        | some score => parseRulesLines inSection (acc ++ [⟨g.2.1, score, g.2.2⟩]) rest
        | none => parseRulesLines inSection acc rest
      | none => parseRulesLines inSection acc rest
    else parseRulesLines inSection acc rest

/-- `parseRules` of `client.go`, appending to the result's rule list. -/
def parseRules (content : String) (r : ScanResult) : ScanResult :=
  { r with rulesHit := parseRulesLines false r.rulesHit (strSplitChar '\n' content) }

/-- The verbose branch of `parseResponse` (lines 153–161): a verbose scan
collects the lines after the blank boundary, each with a trailing newline, as
the summary and runs `parseRules` on it; a non-verbose scan leaves the result
of the header loop untouched. -/
def verboseAugment (verbose : Bool) (pr : ScanResult × List String) : ScanResult :=
  if verbose then
    let summary := String.join (pr.2.map (fun l => l ++ "\n"))
    parseRules summary { pr.1 with summary := summary }
  else pr.1

/-- Line 163 of `client.go`: `result.IsSpam = result.Score >= result.Threshold`. -/
def finalizeResult (r : ScanResult) : ScanResult :=
  { r with isSpam := decide (r.score ≥ r.threshold) }

/-- `parseResponse` of `client.go` (lines 124–166).  The response stream is
the list of lines delivered by `bufio.Scanner` (line terminators already
stripped).  The result starts from the client's configured threshold, the
header loop and the verbose branch fill it in, and `isSpam` is finally set to
`score >= threshold`. -/
def parseResponse (clientThreshold : ℚ) (verbose : Bool) (lines : List String) :
    Except SAError ScanResult :=
  match parseHeaders ⟨0, clientThreshold, false, [], "", []⟩ lines with
  | .error e => .error e
  | .ok pr => .ok (finalizeResult (verboseAugment verbose pr))

/-! ## `net/mail.ReadMessage` (standard-library dependency)

`validateEmailContent` delegates format checking to Go's `net/mail`
package.  Its acceptance behaviour is: read header lines (a line starting
with a space or tab continues the previous one) until a blank line or the end
of input; a nonempty logical header line without a colon is malformed; ending
at end-of-input is accepted only when at least one header was read, while a
blank line always ends the header section successfully. -/

/-- Drop a trailing carriage return, as Go's line reader does. -/
def stripCR (l : String) : String := if lastCharIs l '\r' then dropLastChar l else l

/-- The lines a Go reader delivers for a string: empty input delivers no line,
and a trailing newline does not produce a final empty line. -/
def goLines (s : String) : List String :=
  if s = "" then []
  else (strSplitChar '\n' (if lastCharIs s '\n' then dropLastChar s else s)).map stripCR

/-- A physical line that continues the previous header line. -/
def isContinuationLine (l : String) : Bool := startsWithStr l " " || startsWithStr l "\t"

/-- Glue continuation lines onto their header line. -/
def glueContinued (cur : String) : List String → List String
  | [] => [cur]
  | l :: ls =>
    if l ≠ "" && isContinuationLine l then glueContinued (cur ++ " " ++ trimLeftStr l) ls
    else cur :: glueContinued l ls

/-- The logical lines of a message, continuations folded in. -/
def logicalLines : List String → List String
  | [] => []
  | l :: ls => glueContinued l ls

/-- Scan the header section: `anyHeader` records whether a header line was
already read.  End of input accepts iff a header was read; a blank line
accepts; a header line must contain a colon. -/
def headerScanOk (anyHeader : Bool) : List String → Bool
  | [] => anyHeader
  | l :: ls =>
    if l = "" then true
    else if strContains l ":" then headerScanOk true ls
    else false

/-- Acceptance of `net/mail.ReadMessage` on the given content. -/
def readMessageOk (content : String) : Bool :=
  headerScanOk false (logicalLines (goLines content))

/-! ## `internal/handlers/handlers.go` -/

/-- The fields of `config.SecurityConfig` the handlers consult. -/
structure SecurityConfig where
  maxEmailSize : Nat
  requestsPerMinute : Nat
  burstSize : Nat
  allowedSenders : List String
  blockedDomains : List String
deriving DecidableEq, Repr

/-- `validateEmailContent` of `handlers.go` (lines 377–392): the size check,
then the emptiness check, then the format check via `net/mail.ReadMessage`. -/
def validateEmailContent (maxEmailSize : Nat) (content : String) : Except SAError Unit :=
  if content.length > maxEmailSize then .error .contentTooLarge
  else if content = "" then .error .emptyContent
  else if readMessageOk content then .ok () else .error .invalidFormat

/-- `[a-zA-Z]` of the regexes in `handlers.go`. -/
def isAlphaChar (c : Char) : Bool :=
  ('a' ≤ c && c ≤ 'z') || ('A' ≤ c && c ≤ 'Z')

/-- `emailRegex = ^[a-zA-Z0-9._%+-]+@[a-zA-Z0-9.-]+\.[a-zA-Z]{2,}$`. -/
def isLocalChar (c : Char) : Bool :=
  isAlphaChar c || isDigitChar c || c = '.' || c = '_' || c = '%' || c = '+' || c = '-'

/-- The character class `[a-zA-Z0-9.-]` of `emailRegex`'s domain part. -/
def isDomainChar (c : Char) : Bool :=
  isAlphaChar c || isDigitChar c || c = '.' || c = '-'

/-- Full-string match of the anchored `emailRegex`.  A matching string has
exactly one `@` (both classes exclude it); the part before it is a nonempty
run of local characters; the part after decomposes at its last dot into a
nonempty run of domain characters and a final run of at least two letters. -/
def emailRegexMatch (s : String) : Bool :=
  match strSplitChar '@' s with
  | [lp, dp] =>
    !lp.toList.isEmpty && lp.toList.all isLocalChar &&
    (let ps := strSplitChar '.' dp
     decide (ps.length ≥ 2) &&
     (let tld := ps.getLastD ""
      decide (tld.length ≥ 2) && tld.toList.all isAlphaChar) &&
     (let dom := strJoinChar '.' ps.dropLast
      !dom.toList.isEmpty && dom.toList.all isDomainChar))
  | _ => false

/-- Full-string match of the anchored `ipRegex = ^(\d{1,3}\.){3}\d{1,3}$`:
exactly four dot-separated runs of one to three digits. -/
def ipRegexMatch (s : String) : Bool :=
  let ps := strSplitChar '.' s
  ps.length = 4 &&
    ps.all (fun p => decide (1 ≤ p.length) && decide (p.length ≤ 3) && p.toList.all isDigitChar)

/-- The daemon connection, as the handlers see it: `Client.ScanEmail` for a
given content and options either fails (connection, send or response parsing)
or produces a `ScanResult`. -/
def ScanOracle : Type := String → ScanOptions → Except SAError ScanResult

/-- `ScanEmailParams` of `handlers.go` (the optional `Headers` field is never
read by the handler and is omitted). -/
structure ScanEmailParams where
  content : String
  checkBayes : Bool
  verbose : Bool
deriving DecidableEq, Repr

/-- `ScanEmailResult` of `handlers.go` (without the wall-clock timestamp). -/
structure ScanEmailResult where
  score : ℚ
  threshold : ℚ
  isSpam : Bool
  rulesHit : List RuleMatch
  summary : String
deriving DecidableEq, Repr

/-- `ScanEmail` of `handlers.go` (lines 122–174): rate-limiter check, then
content validation, then the daemon scan, then the response assembly.  The
limiter's verdict for this call is the `allow` argument. -/
def scanEmailHandler (allow : Bool) (sec : SecurityConfig) (scan : ScanOracle)
    (req : ScanEmailParams) : Except SAError ScanEmailResult :=
  if !allow then .error .rateLimitExceeded
  else
    match validateEmailContent sec.maxEmailSize req.content with
    | .error e => .error e
    | .ok _ =>
      match scan req.content ⟨req.checkBayes, req.verbose⟩ with
      | .error e => .error e
      | .ok result =>
        .ok ⟨result.score, result.threshold, result.isSpam, result.rulesHit, result.summary⟩

/-- `CheckReputationParams` of `handlers.go`. -/
structure CheckReputationParams where
  sender : String
  domain : String
  ip : String
deriving DecidableEq, Repr

/-- `ReputationResult` of `handlers.go` (without the wall-clock `details`). -/
structure ReputationResult where
  sender : String
  domain : String
  ip : String
  reputation : String
  blocked : Bool
  reasons : List String
deriving DecidableEq, Repr

/-- The domain used by `CheckReputation` (lines 202–209): the explicit domain
parameter, or, when it is empty and a sender is given, the part after the `@`
when splitting the sender yields exactly two parts. -/
def derivedDomain (req : CheckReputationParams) : String :=
  if req.domain = "" && req.sender ≠ "" then
    match strSplitChar '@' req.sender with
    | [_, d] => d
    | _ => req.domain
  else req.domain

/-- `CheckReputation` of `handlers.go` (lines 176–249): rate-limiter check,
input-format validation, domain derivation, then the blocked-domain loop
(`blocked` becomes true iff some configured blocked domain occurs in the
domain; one reason line per match, in configuration order) and the reputation
tie-break: `bad` when blocked, else `good` when the sender is on the allow
list, else `unknown`. -/
def checkReputationHandler (allow : Bool) (sec : SecurityConfig)
    (req : CheckReputationParams) : Except SAError ReputationResult :=
  if !allow then .error .rateLimitExceeded
  else if req.sender ≠ "" && !emailRegexMatch req.sender then .error .invalidAddressFormat
  else if req.ip ≠ "" && !ipRegexMatch req.ip then .error .invalidAddressFormat
  else
    let domain := derivedDomain req
    let blocked := sec.blockedDomains.any (fun b => strContains domain b)
    let reasons := (sec.blockedDomains.filter (fun b => strContains domain b)).map
      (fun b => "Domain " ++ b ++ " is blocked")
    let reputation :=
      if blocked then "bad"
      else if containsStr sec.allowedSenders req.sender then "good"
      else "unknown"
    .ok ⟨req.sender, domain, req.ip, reputation, blocked, reasons⟩

/-- `GetConfig` of `handlers.go` (lines 251–254) together with
`Client.GetConfig` of `client.go` (lines 222–236).  Note: unlike every other
handler, `GetConfig` performs no rate-limiter check — the `allow` argument
(the verdict the shared limiter would give) is never consulted. -/
def getConfigHandler (allow : Bool) (c : ClientConfig) : Except SAError ConfigInfo :=
  .ok ⟨"3.4.x", c.threshold, true, 1000,
    [("host", c.host), ("port", toString c.port), ("timeout", c.timeout)]⟩

/-- `UpdateRulesParams` of `handlers.go`. -/
structure UpdateRulesParams where
  source : String
  force : Bool
deriving DecidableEq, Repr

/-- `UpdateRules` of `handlers.go` (lines 256–281): rate-limiter check, then
`Client.UpdateRules` (which always succeeds), then the success payload. -/
def updateRulesHandler (allow : Bool) (req : UpdateRulesParams) :
    Except SAError (String × String) :=
  if !allow then .error .rateLimitExceeded
  else .ok ("success", "Rules updated successfully")

/-- `truncateString` of `handlers.go` (lines 421–426). -/
def truncateString (s : String) (maxLen : Nat) : String :=
  if s.length ≤ maxLen then s else takeChars s maxLen ++ "..."

/-- `TestRulesParams` of `handlers.go`. -/
structure TestRulesParams where
  rules : String
  testEmails : List String
deriving DecidableEq, Repr

/-- `TestResult` of `handlers.go`. -/
structure TestResult where
  email : String
  score : ℚ
  isSpam : Bool
  rulesMatched : List String
deriving DecidableEq, Repr

/-- `TestRulesResult` of `handlers.go`. -/
structure TestRulesResult where
  results : List TestResult
  summary : String
deriving DecidableEq, Repr

/-- One iteration of the `TestRules` batch loop (lines 308–331): a sample that
fails validation is skipped, a sample whose scan fails is skipped, and a
sample that passes both contributes one `TestResult` whose `email` field is
the sample truncated to 100 bytes and whose rule names are taken from the
scan's `rulesHit` in order. -/
def testRulesSample (maxEmailSize : Nat) (scan : ScanOracle) (email : String) :
    Option TestResult :=
  match validateEmailContent maxEmailSize email with
  | .error _ => none
  | .ok _ =>
    match scan email ⟨false, true⟩ with
    | .error _ => none
    | .ok sr => some ⟨truncateString email 100, sr.score, sr.isSpam, sr.rulesHit.map (fun r => r.name)⟩

/-- `TestRules` of `handlers.go` (lines 283–337): rate-limiter check, the
empty-rules check, then the batch loop over the samples in order, and the
summary counting the produced results. -/
def testRulesHandler (allow : Bool) (sec : SecurityConfig) (scan : ScanOracle)
    (req : TestRulesParams) : Except SAError TestRulesResult :=
  if !allow then .error .rateLimitExceeded
  else if req.rules = "" then .error .emptyRules
  else
    let results := req.testEmails.filterMap (testRulesSample sec.maxEmailSize scan)
    .ok ⟨results, "Tested " ++ toString results.length ++ " emails against custom rules"⟩

/-- Go's `fmt.Sprintf "%.2f"` on the rational model of a `float64`: the value
rounded to two decimal places (`⌊q·100 + 1/2⌋`, computed on the numerator and
denominator) and rendered with exactly two fraction digits.  Go rounds the
underlying binary float to even; the two renderings agree except on exact
decimal midpoints, which a binary float almost never is. -/
def fmt2 (q : ℚ) : String :=
  let n : ℤ := Int.fdiv (200 * q.num + (q.den : ℤ)) (2 * (q.den : ℤ))
  (if n < 0 then "-" else "") ++ toString (n.natAbs / 100) ++ "." ++
    (if n.natAbs % 100 < 10 then "0" else "") ++ toString (n.natAbs % 100)

/-- The classification label of `buildScoreExplanation`:
`map[bool]string{true: "SPAM", false: "HAM"}[result.IsSpam]`. -/
def classificationLabel (isSpam : Bool) : String := if isSpam then "SPAM" else "HAM"

/-- One rule line of `buildScoreExplanation`:
`fmt.Sprintf("  %s: %.2f - %s\n", rule.Name, rule.Score, rule.Description)`. -/
def explanationRuleLine (rule : RuleMatch) : String :=
  "  " ++ rule.name ++ ": " ++ fmt2 rule.score ++ " - " ++ rule.description ++ "\n"

/-- `buildScoreExplanation` of `handlers.go` (lines 394–410). -/
def buildScoreExplanation (result : ScanResult) : String :=
  "Final Score: " ++ fmt2 result.score ++ " (Threshold: " ++ fmt2 result.threshold ++ ")\n" ++
  "Classification: " ++ classificationLabel result.isSpam ++ "\n\n" ++
  (if result.rulesHit.length > 0 then
    "Rules Triggered:\n" ++ String.join (result.rulesHit.map explanationRuleLine)
  else
    "No spam rules triggered.\n")

/-- `ScoreExplanation` of `handlers.go` (the optional `BayesScore` is never
set by the handler and is omitted). -/
structure ScoreExplanation where
  finalScore : ℚ
  ruleDetails : List RuleMatch
  networkTests : List String
  explanation : String
deriving DecidableEq, Repr

/-- `ExplainScore` of `handlers.go` (lines 339–375): rate-limiter check,
content validation, a verbose scan with Bayes, then the explanation. -/
def explainScoreHandler (allow : Bool) (sec : SecurityConfig) (scan : ScanOracle)
    (emailContent : String) : Except SAError ScoreExplanation :=
  if !allow then .error .rateLimitExceeded
  else
    match validateEmailContent sec.maxEmailSize emailContent with
    | .error e => .error e
    | .ok _ =>
      match scan emailContent ⟨true, true⟩ with
      | .error e => .error e
      | .ok result => .ok ⟨result.score, result.rulesHit, [], buildScoreExplanation result⟩

/-! ## Definitions written from the specification's words

These two definitions deliberately follow the specification (not the Go
source); they exist only to be compared against the code-derived definitions
above. -/

/-- Modelled from the spec: the request frame as §2 words it — the command
line, then (when Bayes analysis is requested) `User: bayes`, then the
`Content-length` line, then the blank line, then the raw content. -/
def specRequestFrame (content : String) (options : ScanOptions) : String :=
  scanCommand options ++ " SPAMC/1.2\r\n" ++
  (if options.checkBayes then "User: bayes\r\n" else "") ++
  "Content-length: " ++ toString content.length ++ "\r\n" ++
  "\r\n" ++ content

/-- Modelled from the spec: the header sanitization it requires (the same
transformation appears as a `sanitizeHeaders` listing in the repository's
security guide, but `handlers.go` neither defines nor calls it): drop every
line whose lowercased text starts with one of the envelope-routing header
names, keeping all other lines unchanged in order. -/
def sanitizeHeaders (content : String) : String :=
  strJoinChar '\n' ((strSplitChar '\n' content).filter (fun line =>
    !(["x-original-to:", "return-path:", "envelope-to:"].any
        (fun h => startsWithStr (toLowerStr line) h))))

deriving instance DecidableEq for Except

/-- Two strings with the same character data are equal. -/
theorem strDataExt {a b : String} (h : a.data = b.data) : a = b := by
  cases a; cases b; exact congrArg String.mk h

/-- The data of an append is the append of the data. -/
theorem strDataAppend (a b : String) : (a ++ b).data = a.data ++ b.data := rfl

/-! ## Theorems settling the claims -/

/-- C2 (counterexample): with Bayes analysis requested, the encoded frame puts
the `Content-length` header *before* the `User: bayes` header, so it differs
from the layout the claim states (command line, then `User: bayes`, then
`Content-length`). -/
theorem scanRequestFrame_order_counterexample :
    scanRequestFrame "A" ⟨true, false⟩ =
      "CHECK SPAMC/1.2\r\nContent-length: 1\r\nUser: bayes\r\n\r\nA" ∧
    scanRequestFrame "A" ⟨true, false⟩ ≠ specRequestFrame "A" ⟨true, false⟩ := by
  exact ⟨rfl, by decide⟩

/-- C2 (amended): for every content and option setting the encoded request
frame is byte-exactly the command line `"<COMMAND> SPAMC/1.2\r\n"`, then
`"Content-length: <N>\r\n"` with `N` the byte length of the content, then —
when Bayes analysis is requested — `"User: bayes\r\n"`, then `"\r\n"`, then
the raw content bytes, in that order. -/
theorem scanRequestFrame_layout (content : String) (options : ScanOptions) :
    scanRequestFrame content options =
      scanCommand options ++ " SPAMC/1.2\r\n" ++
      ("Content-length: " ++ toString content.length ++ "\r\n") ++
      (if options.checkBayes then "User: bayes\r\n" else "") ++
      ("\r\n" ++ content) := by
  apply strDataExt
  cases hb : options.checkBayes <;>
    simp [scanRequestFrame, hb, strDataAppend]

/-- C3: every `ScanResult` decoded from a daemon response satisfies
`isSpam = (score >= threshold)`; in particular a result whose score equals
the threshold is classified as spam. -/
theorem parseResponse_isSpam_iff (t : ℚ) (v : Bool) (lines : List String)
    (r : ScanResult) (h : parseResponse t v lines = .ok r) :
    (r.isSpam = true ↔ r.score ≥ r.threshold) ∧
    (r.score = r.threshold → r.isSpam = true) := by
  unfold parseResponse at h
  split at h
  · exact absurd h (by simp)
  · simp only [Except.ok.injEq] at h
    subst h
    refine ⟨?_, fun he => ?_⟩
    · simp [finalizeResult]
    · simp only [finalizeResult] at he ⊢
      simp [he]

/-- C3 (witness): a concrete response stream whose status line carries score
15 against threshold 5 decodes with `isSpam` true, and the invariant holds on
the decoded result. -/
theorem parseResponse_isSpam_iff_witness :
    ((⟨15, 5, true, [], "", []⟩ : ScanResult).isSpam = true ↔
      (⟨15, 5, true, [], "", []⟩ : ScanResult).score ≥
        (⟨15, 5, true, [], "", []⟩ : ScanResult).threshold) ∧
    ((⟨15, 5, true, [], "", []⟩ : ScanResult).score =
        (⟨15, 5, true, [], "", []⟩ : ScanResult).threshold →
      (⟨15, 5, true, [], "", []⟩ : ScanResult).isSpam = true) :=
  parseResponse_isSpam_iff 5 false ["Spam: junk; 15/5", ""] _ (by decide)

/-- C4: `get_config` performs no rate-limiter check.  With the limiter
denying the call, every other exposed operation fails with
`rateLimitExceeded` before any validation or daemon interaction (the inputs
below would otherwise fail validation), but `get_config` still returns the
configuration. -/
theorem getConfig_skips_rate_limit :
    getConfigHandler false ⟨"localhost", 783, "30s", 5⟩ =
      .ok ⟨"3.4.x", 5, true, 1000,
        [("host", "localhost"), ("port", "783"), ("timeout", "30s")]⟩ ∧
    scanEmailHandler false ⟨10485760, 60, 10, [], []⟩
        (fun _ _ => .ok ⟨0, 5, false, [], "", []⟩) ⟨"", false, false⟩ =
      .error .rateLimitExceeded ∧
    checkReputationHandler false ⟨10485760, 60, 10, [], []⟩ ⟨"not-an-email", "", ""⟩ =
      .error .rateLimitExceeded ∧
    updateRulesHandler false ⟨"official", false⟩ = .error .rateLimitExceeded ∧
    testRulesHandler false ⟨10485760, 60, 10, [], []⟩
        (fun _ _ => .ok ⟨0, 5, false, [], "", []⟩) ⟨"", []⟩ =
      .error .rateLimitExceeded ∧
    explainScoreHandler false ⟨10485760, 60, 10, [], []⟩
        (fun _ _ => .ok ⟨0, 5, false, [], "", []⟩) "" = .error .rateLimitExceeded :=
  ⟨rfl, rfl, rfl, rfl, rfl, rfl⟩

/-- C5: `handlers.go` performs no header sanitization.  A scan request whose
content carries a `Return-Path` envelope header passes validation, and the
content forwarded to the daemon (recorded by the oracle in the summary) is
the request content byte-for-byte — while the transformation the
specification requires (`sanitizeHeaders`) would change it. -/
theorem scanEmail_forwards_unsanitized :
    sanitizeHeaders "Return-Path: attacker@evil.example\nSubject: hi\n\nbody" ≠
      "Return-Path: attacker@evil.example\nSubject: hi\n\nbody" ∧
    scanEmailHandler true ⟨10485760, 60, 10, [], []⟩
        (fun c _ => .ok ⟨0, 5, false, [], c, []⟩)
        ⟨"Return-Path: attacker@evil.example\nSubject: hi\n\nbody", false, false⟩ =
      .ok ⟨0, 5, false, [], "Return-Path: attacker@evil.example\nSubject: hi\n\nbody"⟩ :=
  ⟨by decide, rfl⟩

/-- C6 (counterexample): content of exactly `maxSize` bytes is not always
accepted — a 7-byte content with `maxSize = 7` that is not a well-formed
message is rejected by the format check. -/
theorem validate_exactSize_not_accepted :
    ("garbage" : String).length = 7 ∧
    validateEmailContent 7 "garbage" = .error .invalidFormat :=
  ⟨rfl, rfl⟩

/-- C6 (amended): content of `maxSize + 1` bytes is rejected with
`contentTooLarge`; the empty string is rejected with `emptyContent`; content
of exactly `maxSize` bytes is never rejected for size — it passes the size
check and is accepted exactly when the email-format check passes. -/
theorem validateEmailContent_size_checks (maxSize : Nat) (content : String) :
    (content.length = maxSize + 1 →
      validateEmailContent maxSize content = .error .contentTooLarge) ∧
    (content = "" → validateEmailContent maxSize content = .error .emptyContent) ∧
    (content.length = maxSize →
      validateEmailContent maxSize content ≠ .error .contentTooLarge ∧
      (readMessageOk content = true → content ≠ "" →
        validateEmailContent maxSize content = .ok ())) := by
  unfold validateEmailContent
  refine ⟨fun h1 => ?_, fun h2 => ?_, fun h3 => ⟨?_, fun hok hne => ?_⟩⟩
  · have hgt : content.length > maxSize := by omega
    simp [hgt]
  · subst h2
    have h0 : ("" : String).length = 0 := rfl
    simp [h0]
  · have hngt : ¬ content.length > maxSize := by omega
    simp only [hngt, if_false]
    split_ifs <;> simp
  · have hngt : ¬ content.length > maxSize := by omega
    simp [hngt, hne, hok]

/-- C6 (witness): with `maxSize = 4` a 5-byte content is rejected for size;
the empty string is rejected as empty; with `maxSize = 5` the same 5-byte
well-formed content is not rejected for size and is accepted. -/
theorem validateEmailContent_size_checks_witness :
    validateEmailContent 4 "A: bc" = .error .contentTooLarge ∧
    validateEmailContent 5 "" = .error .emptyContent ∧
    validateEmailContent 5 "A: bc" ≠ .error .contentTooLarge ∧
    validateEmailContent 5 "A: bc" = .ok () :=
  ⟨(validateEmailContent_size_checks 4 "A: bc").1 rfl,
   (validateEmailContent_size_checks 5 "").2.1 rfl,
   ((validateEmailContent_size_checks 5 "A: bc").2.2 rfl).1,
   ((validateEmailContent_size_checks 5 "A: bc").2.2 rfl).2 (by decide) (by decide)⟩

/-- Every error produced by `parseSpamLine` is a malformed-response error. -/
theorem parseSpamLine_error_malformed (line : String) (e : SAError)
    (h : parseSpamLine line = .error e) : ∃ m, e = .malformedResponse m := by
  unfold parseSpamLine at h
  split at h
  · simp only [Except.error.injEq] at h
    exact ⟨_, h.symm⟩
  · split at h
    · simp only [Except.error.injEq] at h
      exact ⟨_, h.symm⟩
    · split at h
      · simp only [Except.error.injEq] at h
        exact ⟨_, h.symm⟩
      · exact absurd h (by simp)

/-- A line without a score token makes `parseSpamLine` fail. -/
theorem parseSpamLine_none (line : String) (h : scoreRegexFind line = none) :
    parseSpamLine line =
      .error (.malformedResponse ("invalid spam line format: " ++ line)) := by
  unfold parseSpamLine
  rw [h]

/-- If some `Spam:`-prefixed line before the blank boundary has no score
token, the header loop fails with a malformed-response error. -/
theorem parseHeaders_error_of_badSpam (lines : List String) : ∀ r : ScanResult,
    (∃ l ∈ lines.takeWhile (fun l => l ≠ ""), startsWithStr l "Spam:" = true ∧
      scoreRegexFind l = none) →
    ∃ m, parseHeaders r lines = .error (.malformedResponse m) := by
  induction lines with
  | nil => intro r h; simp at h
  | cons line rest ih =>
    intro r h
    by_cases hline : line = ""
    · subst hline
      simp [List.takeWhile_cons] at h
    · rw [List.takeWhile_cons, if_pos (by simpa using hline)] at h
      obtain ⟨l, hl, hsw, hnone⟩ := h
      simp only [parseHeaders]
      rw [if_neg hline]
      by_cases hs : startsWithStr line "Spam:" = true
      · rw [if_pos hs]
        cases hps : parseSpamLine line with
        | error e =>
          obtain ⟨m, rfl⟩ := parseSpamLine_error_malformed line e hps
          exact ⟨m, rfl⟩
        | ok st =>
          rcases List.mem_cons.mp hl with rfl | hl2
          · rw [parseSpamLine_none l hnone] at hps
            exact absurd hps (by simp)
          · exact ih _ ⟨l, hl2, hsw, hnone⟩
      · rw [if_neg hs]
        rcases List.mem_cons.mp hl with rfl | hl2
        · exact absurd hsw hs
        · cases hsp : splitN2 line <;> exact ih _ ⟨l, hl2, hsw, hnone⟩
    
/-- If no line before the blank boundary carries the `Spam:` prefix, the
header loop succeeds and never touches the score or the threshold. -/
theorem parseHeaders_ok_of_noSpam (lines : List String) : ∀ r : ScanResult,
    (∀ l ∈ lines.takeWhile (fun l => l ≠ ""), startsWithStr l "Spam:" = false) →
    ∃ pr : ScanResult × List String, parseHeaders r lines = .ok pr ∧
      pr.1.score = r.score ∧ pr.1.threshold = r.threshold := by
  induction lines with
  | nil => intro r _; exact ⟨(r, []), rfl, rfl, rfl⟩
  | cons line rest ih =>
    intro r h
    by_cases hline : line = ""
    · subst hline
      exact ⟨(r, rest), by simp [parseHeaders], rfl, rfl⟩
    · have hmem : line ∈ (line :: rest).takeWhile (fun l => l ≠ "") := by
        rw [List.takeWhile_cons, if_pos (by simpa using hline)]
        exact List.mem_cons_self line _
      have hs : startsWithStr line "Spam:" = false := h line hmem
      have h2 : ∀ l ∈ rest.takeWhile (fun l => l ≠ ""),
          startsWithStr l "Spam:" = false := by
        intro l hl
        refine h l ?_
        rw [List.takeWhile_cons, if_pos (by simpa using hline)]
        exact List.mem_cons_of_mem _ hl
      simp only [parseHeaders]
      rw [if_neg hline, if_neg (by simp [hs])]
      cases hsp : splitN2 line with
      | none =>
        obtain ⟨pr, hpr, hsc, hth⟩ := ih _ h2
        exact ⟨pr, hpr, hsc, hth⟩
      | some kv =>
        obtain ⟨pr, hpr, hsc, hth⟩ := ih ({ r with headers := updateHeaders r.headers (trimBoth kv.1) (trimBoth kv.2) }) h2
        exact ⟨pr, hpr, by simpa using hsc, by simpa using hth⟩

/-- C1 (amended): a response stream in which some `Spam:`-prefixed header
line before the blank-line boundary contains no `<num>/<num>` score token is
decoded to a malformed-response error; but a stream in which *no* header line
carries the `Spam:` prefix decodes successfully to a result with the default
zero score and the client's configured threshold — it does not produce an
error. -/
theorem parseResponse_spamLine_malformed (t : ℚ) (v : Bool) (lines : List String) :
    ((∃ l ∈ lines.takeWhile (fun l => l ≠ ""), startsWithStr l "Spam:" = true ∧
        scoreRegexFind l = none) →
      ∃ m, parseResponse t v lines = .error (.malformedResponse m)) ∧
    ((∀ l ∈ lines.takeWhile (fun l => l ≠ ""), startsWithStr l "Spam:" = false) →
      ∃ r, parseResponse t v lines = .ok r ∧ r.score = 0 ∧ r.threshold = t) := by
  constructor
  · intro h
    obtain ⟨m, hm⟩ := parseHeaders_error_of_badSpam lines ⟨0, t, false, [], "", []⟩ h
    exact ⟨m, by simp [parseResponse, hm]⟩
  · intro h
    obtain ⟨pr, hpr, hsc, hth⟩ := parseHeaders_ok_of_noSpam lines ⟨0, t, false, [], "", []⟩ h
    refine ⟨finalizeResult (verboseAugment v pr), by simp [parseResponse, hpr], ?_, ?_⟩
    · cases v <;> simp [finalizeResult, verboseAugment, parseRules] <;> simpa using hsc
    · cases v <;> simp [finalizeResult, verboseAugment, parseRules] <;> simpa using hth

/-- C1 (witness): a stream whose `Spam:` line has no score token yields a
malformed-response error, and a stream with no `Spam:` line yields a
zero-score result carrying the client's threshold. -/
theorem parseResponse_spamLine_malformed_witness :
    (∃ m, parseResponse 5 false ["Spam: junk", ""] = .error (.malformedResponse m)) ∧
    (∃ r, parseResponse 5 false ["X-Bar: baz", ""] = .ok r ∧ r.score = 0 ∧ r.threshold = 5) :=
  ⟨(parseResponse_spamLine_malformed 5 false ["Spam: junk", ""]).1
      ⟨"Spam: junk", by decide, by decide, by decide⟩,
   (parseResponse_spamLine_malformed 5 false ["X-Bar: baz", ""]).2 (by decide)⟩

/-- C1 (counterexample): a response stream with no `<num>/<num>` token in any
line before the blank-line boundary decodes successfully to a default
zero-score result rather than a malformed-response error, because no line
carries the `Spam:` prefix and the status-line parser is never invoked. -/
theorem parseResponse_noScoreLine_defaultZero :
    scoreRegexFind "X-Foo: bar" = none ∧
    parseResponse 5 false ["X-Foo: bar", ""] =
      .ok ⟨0, 5, false, [], "", [("X-Foo", "bar")]⟩ :=
  ⟨rfl, rfl⟩

/-- C7: a reputation query whose sender is on the allow list (exact match)
while its derived domain matches a configured blocked domain (substring
containment) is reported `bad` and blocked — the block-list check takes
precedence over the allow-list check. -/
theorem checkReputation_block_precedence (sec : SecurityConfig)
    (req : CheckReputationParams)
    (hmail : req.sender ≠ "" → emailRegexMatch req.sender = true)
    (hip : req.ip ≠ "" → ipRegexMatch req.ip = true)
    (_hallow : req.sender ∈ sec.allowedSenders)
    (hblock : ∃ b ∈ sec.blockedDomains, strContains (derivedDomain req) b = true) :
    ∃ res, checkReputationHandler true sec req = .ok res ∧
      res.reputation = "bad" ∧ res.blocked = true := by
  have hb : sec.blockedDomains.any (fun b => strContains (derivedDomain req) b) = true := by
    obtain ⟨b, hb1, hb2⟩ := hblock
    exact List.any_eq_true.mpr ⟨b, hb1, hb2⟩
  have hp1 : ¬(¬req.sender = "" ∧ emailRegexMatch req.sender = false) := by
    rintro ⟨hne, hf⟩
    rw [hmail hne] at hf
    cases hf
  have hp2 : ¬(¬req.ip = "" ∧ ipRegexMatch req.ip = false) := by
    rintro ⟨hne, hf⟩
    rw [hip hne] at hf
    cases hf
  refine ⟨⟨req.sender, derivedDomain req, req.ip, "bad", true,
    (sec.blockedDomains.filter (fun b => strContains (derivedDomain req) b)).map
      (fun b => "Domain " ++ b ++ " is blocked")⟩, ?_, rfl, rfl⟩
  simp [checkReputationHandler, hb]
  rw [if_neg hp1, if_neg hp2]

/-- C7 (witness): a sender simultaneously on the allow list and with a
blocked domain is reported `bad` and blocked. -/
theorem checkReputation_block_precedence_witness :
    ∃ res, checkReputationHandler true ⟨1000, 60, 10, ["evil@bad.com"], ["bad.com"]⟩
        ⟨"evil@bad.com", "", ""⟩ = .ok res ∧
      res.reputation = "bad" ∧ res.blocked = true :=
  checkReputation_block_precedence _ _ (fun _ => by decide)
    (fun h => absurd rfl h) (by decide) ⟨"bad.com", by decide, by decide⟩

/-- C8: the score explanation is deterministic and structured: it begins with
the final score and threshold to two decimal places and the classification
label; when rules were hit it continues with one line per rule in `rulesHit`
order, each rendered as `"<name>: <score to 2dp> - <description>"`; when no
rules were hit it ends with `"No spam rules triggered."`. -/
theorem buildScoreExplanation_format (r : ScanResult) :
    (∃ tl, buildScoreExplanation r =
      "Final Score: " ++ fmt2 r.score ++ " (Threshold: " ++ fmt2 r.threshold ++ ")\n" ++
      "Classification: " ++ classificationLabel r.isSpam ++ tl) ∧
    (r.rulesHit ≠ [] →
      buildScoreExplanation r =
        "Final Score: " ++ fmt2 r.score ++ " (Threshold: " ++ fmt2 r.threshold ++ ")\n" ++
        "Classification: " ++ classificationLabel r.isSpam ++ "\n\n" ++
        "Rules Triggered:\n" ++
        String.join (r.rulesHit.map (fun rule =>
          "  " ++ rule.name ++ ": " ++ fmt2 rule.score ++ " - " ++ rule.description ++ "\n"))) ∧
    (r.rulesHit = [] →
      buildScoreExplanation r =
        "Final Score: " ++ fmt2 r.score ++ " (Threshold: " ++ fmt2 r.threshold ++ ")\n" ++
        "Classification: " ++ classificationLabel r.isSpam ++ "\n\n" ++
        "No spam rules triggered.\n") := by
  refine ⟨⟨"\n\n" ++ (if r.rulesHit.length > 0 then
      "Rules Triggered:\n" ++ String.join (r.rulesHit.map explanationRuleLine)
    else "No spam rules triggered.\n"), ?_⟩, fun h => ?_, fun h => ?_⟩
  · apply strDataExt
    simp [buildScoreExplanation, strDataAppend]
  · apply strDataExt
    have hl : 0 < r.rulesHit.length := List.length_pos.mpr h
    simp [buildScoreExplanation, hl, explanationRuleLine, strDataAppend, Function.comp]
    rfl
  · apply strDataExt
    simp [buildScoreExplanation, h, strDataAppend]

/-- C8 (witness): the explanation for score 7.5 against threshold 5 with two
rules hit, and for a scoreless ham result with no rules hit. -/
theorem buildScoreExplanation_format_witness :
    buildScoreExplanation
        ⟨Rat.mk' 15 2, 5, true,
          [⟨"RULE_A", Rat.mk' 5 2, "desc A"⟩, ⟨"RULE_B", 5, "desc B"⟩], "", []⟩ =
      "Final Score: 7.50 (Threshold: 5.00)\nClassification: SPAM\n\nRules Triggered:\n  RULE_A: 2.50 - desc A\n  RULE_B: 5.00 - desc B\n" ∧
    buildScoreExplanation ⟨0, 5, false, [], "", []⟩ =
      "Final Score: 0.00 (Threshold: 5.00)\nClassification: HAM\n\nNo spam rules triggered.\n" :=
  ⟨((buildScoreExplanation_format _).2.1 (by decide)).trans (by decide),
   ((buildScoreExplanation_format _).2.2 rfl).trans (by decide)⟩

/-- Whether an `Except` computation succeeded. -/
def exceptOk {ε α : Type} : Except ε α → Bool
  | .ok _ => true
  | .error _ => false

/-- The length of a `filterMap` is the number of elements on which the
function succeeds. -/
theorem length_filterMap_eq_length_filter {α β : Type} (f : α → Option β) (l : List α) :
    (l.filterMap f).length = (l.filter (fun a => (f a).isSome)).length := by
  induction l with
  | nil => rfl
  | cons a t ih => cases h : f a <;> simp [List.filterMap_cons, h, List.filter_cons, ih]

/-- A sample produces a `TestResult` exactly when it passes validation and
its scan succeeds. -/
theorem testRulesSample_isSome (m : Nat) (scan : ScanOracle) (email : String) :
    (testRulesSample m scan email).isSome =
      (exceptOk (validateEmailContent m email) && exceptOk (scan email ⟨false, true⟩)) := by
  unfold testRulesSample
  cases hv : validateEmailContent m email with
  | error e => simp [hv, exceptOk]
  | ok u => cases hs : scan email ⟨false, true⟩ <;> simp [hs, exceptOk]

/-- C9 (counterexample): a validation failure is not the only silently
swallowed error — a sample that passes validation but whose daemon scan
fails is also skipped: the batch call still succeeds, with no result entry
for that sample. -/
theorem testRules_swallows_scan_error :
    validateEmailContent 1000 "A: b" = .ok () ∧
    testRulesHandler true ⟨1000, 60, 10, [], []⟩ (fun _ _ => .error .connectionFailed)
        ⟨"r", ["A: b"]⟩ = .ok ⟨[], "Tested 0 emails against custom rules"⟩ :=
  ⟨rfl, rfl⟩

/-- C9 (amended): inside `TestRules` both the validation failure and the scan
failure of an individual sample are silently swallowed; every sample that
passes validation *and* scans successfully contributes exactly one entry to
the results, in order, and the summary count equals the number of produced
entries. -/
theorem testRules_results_accounting (sec : SecurityConfig) (scan : ScanOracle)
    (req : TestRulesParams) (hr : req.rules ≠ "") :
    ∃ res, testRulesHandler true sec scan req = .ok res ∧
      res.results = req.testEmails.filterMap (testRulesSample sec.maxEmailSize scan) ∧
      res.results.length = (req.testEmails.filter (fun e =>
        exceptOk (validateEmailContent sec.maxEmailSize e) &&
        exceptOk (scan e ⟨false, true⟩))).length ∧
      res.summary = "Tested " ++ toString res.results.length ++
        " emails against custom rules" := by
  have hh : testRulesHandler true sec scan req =
      .ok ⟨req.testEmails.filterMap (testRulesSample sec.maxEmailSize scan),
        "Tested " ++
          toString (req.testEmails.filterMap (testRulesSample sec.maxEmailSize scan)).length ++
          " emails against custom rules"⟩ := by
    simp [testRulesHandler, hr]
  refine ⟨_, hh, rfl, ?_, rfl⟩
  rw [length_filterMap_eq_length_filter]
  rw [List.filter_congr (fun e _ => testRulesSample_isSome sec.maxEmailSize scan e)]

/-- C9 (witness): a batch of one oversized sample and one valid sample that
scans successfully returns exactly one result entry and a summary counting
one tested email. -/
theorem testRules_results_accounting_witness :
    ∃ res, testRulesHandler true ⟨5, 60, 10, [], []⟩
        (fun _ _ => .ok ⟨1, 5, false, [], "", []⟩)
        ⟨"r", ["toolong content here", "A: b"]⟩ = .ok res ∧
      res.results = [⟨"A: b", 1, false, []⟩] ∧
      res.results.length = 1 ∧
      res.summary = "Tested 1 emails against custom rules" := by
  obtain ⟨res, h1, h2, h3, h4⟩ :=
    testRules_results_accounting ⟨5, 60, 10, [], []⟩
      (fun _ _ => .ok ⟨1, 5, false, [], "", []⟩)
      ⟨"r", ["toolong content here", "A: b"]⟩ (by decide)
  have h2x : res.results = [⟨"A: b", 1, false, []⟩] := h2
  refine ⟨res, h1, h2x, ?_, ?_⟩
  · rw [h2x]
    rfl
  · rw [h4, h2x]
    rfl

/-- C10: every entry of a `TestRules` result reports as its `email` field the
originating sample truncated to 100 bytes: the sample itself when it is at
most 100 bytes long, and otherwise its first 100 bytes followed by `"..."` —
the full content of a longer sample is never echoed back. -/
theorem testRules_email_truncated (sec : SecurityConfig) (scan : ScanOracle)
    (req : TestRulesParams) (res : TestRulesResult) (tr : TestResult)
    (hres : testRulesHandler true sec scan req = .ok res)
    (hmem : tr ∈ res.results) :
    ∃ email ∈ req.testEmails, tr.email = truncateString email 100 ∧
      (email.length ≤ 100 → tr.email = email) ∧
      (100 < email.length → tr.email = takeChars email 100 ++ "...") := by
  unfold testRulesHandler at hres
  rw [if_neg (by simp)] at hres
  by_cases hr : req.rules = ""
  · rw [if_pos hr] at hres
    exact absurd hres (by simp)
  · rw [if_neg hr] at hres
    simp only [Except.ok.injEq] at hres
    subst hres
    simp only [List.mem_filterMap] at hmem
    obtain ⟨email, hin, hsmp⟩ := hmem
    have heq : tr.email = truncateString email 100 := by
      unfold testRulesSample at hsmp
      split at hsmp
      · exact absurd hsmp (by simp)
      · split at hsmp
        · exact absurd hsmp (by simp)
        · simp only [Option.some.injEq] at hsmp
          subst hsmp
          rfl
    refine ⟨email, hin, heq, fun hle => ?_, fun hlt => ?_⟩
    · rw [heq]
      unfold truncateString
      rw [if_pos hle]
    · rw [heq]
      unfold truncateString
      rw [if_neg (by omega)]

/-- C10 (witness): a short sample is echoed back whole; the truncation
invariant holds for the single produced entry. -/
theorem testRules_email_truncated_witness :
    ∃ email ∈ ["A: b"],
      (⟨"A: b", 1, false, []⟩ : TestResult).email = truncateString email 100 ∧
      (email.length ≤ 100 → (⟨"A: b", 1, false, []⟩ : TestResult).email = email) ∧
      (100 < email.length →
        (⟨"A: b", 1, false, []⟩ : TestResult).email = takeChars email 100 ++ "...") :=
  testRules_email_truncated ⟨1000, 60, 10, [], []⟩
    (fun _ _ => .ok ⟨1, 5, false, [], "", []⟩) ⟨"r", ["A: b"]⟩
    ⟨[⟨"A: b", 1, false, []⟩], "Tested 1 emails against custom rules"⟩
    ⟨"A: b", 1, false, []⟩ rfl (by decide)
